import Mathlib

/-!
Shallow embedding of the real-time session synchronization core of the
mernify frontend: the playback synchronization logic of
`RoomVideoPlayer.tsx` and the collaborative whiteboard logic of the
`Whiteboard` component.  JavaScript numbers are modelled as rationals,
mutable refs as fields of explicit state records, and side effects
(canvas 2D calls, player control calls, outgoing broadcasts) as explicit
event traces returned alongside the new state.
-/

namespace Mernify

/-- `SEEK_THRESHOLD = 0.6` seconds, from `RoomVideoPlayer.tsx`. -/
def SEEK_THRESHOLD : ℚ := 3 / 5

/-- `UPDATE_THROTTLE_MS = 1500` milliseconds, from `RoomVideoPlayer.tsx`. -/
def UPDATE_THROTTLE_MS : ℚ := 1500

/-- A playback message as carried on the socket channel.  The code emits
`{roomId, video_url, is_playing, playback_time}` — it attaches no origin
identifier; the optional `origin` field models extra metadata a relay
could attach, which the handler never reads. -/
structure PlaybackMsg where
  origin : Option String
  is_playing : Bool
  playback_time : ℚ
  video_url : Option String
deriving DecidableEq, Repr

/-- The media control surface registered by `VideoPlayer` via
`registerControls`: it always carries `seekTo`, `getCurrentTime` and
`setPlaying` together, so readiness is all-or-nothing.  We record the
observable player state the surface reports/mutates. -/
structure PlayerSurface where
  currentTime : ℚ
  playing : Bool
deriving DecidableEq, Repr

/-- A call made through the media control surface. -/
inductive PlayerCmd where
  | seekTo (t : ℚ)
  | setPlaying (b : Bool)
deriving DecidableEq, Repr

/-- The mutable refs of `RoomVideoPlayer`: `lastSentRef`,
`pendingSeekRef` and `playerControlRef` (`none` = surface not ready). -/
structure RVPState where
  lastSent : ℚ
  pendingSeek : Option ℚ
  player : Option PlayerSurface
deriving DecidableEq, Repr

/-- Is a player command a seek? -/
def PlayerCmd.isSeek : PlayerCmd → Bool
  | .seekTo _ => true
  | .setPlaying _ => false

/-- The `playback-update` socket handler of `RoomVideoPlayer`
(lines 46–65): when the surface is ready, compute
`diff = |localTime - playback_time|`, seek iff `diff > SEEK_THRESHOLD`,
then apply `is_playing` via `setPlaying`; when the surface is not ready,
store the target in `pendingSeekRef`. -/
def onPlaybackUpdate (msg : PlaybackMsg) (s : RVPState) : RVPState × List PlayerCmd :=
  let expectedTime := msg.playback_time
  match s.player with
  | some p =>
      let diff := |p.currentTime - expectedTime|
      let seeked : PlayerSurface × List PlayerCmd :=
        if diff > SEEK_THRESHOLD then
          ({ p with currentTime := expectedTime }, [.seekTo expectedTime])
        else (p, [])
      ({ s with player := some { seeked.1 with playing := msg.is_playing } },
        seeked.2 ++ [.setPlaying msg.is_playing])
  | none =>
      ({ s with pendingSeek := some expectedTime }, [])

/-- `setPlayerControls` (lines 134–140): attach the surface; if a pending
seek is buffered, consume it immediately and reset the buffer. -/
def setPlayerControls (controls : PlayerSurface) (s : RVPState) : RVPState × List PlayerCmd :=
  match s.pendingSeek with
  | some t =>
      ({ s with player := some { controls with currentTime := t }, pendingSeek := none },
        [.seekTo t])
  | none => ({ s with player := some controls }, [])

/-- Build the outgoing `playback-update` payload
`{roomId, video_url, is_playing, playback_time}` (no origin field). -/
def mkPlaybackOut (b : Bool) (t : ℚ) (url : Option String) : PlaybackMsg :=
  { origin := none, is_playing := b, playback_time := t, video_url := url }

/-- `handleLocalTimeUpdate` (lines 92–107): the periodic heartbeat.
Suppressed when `now - lastSent < UPDATE_THROTTLE_MS`; otherwise updates
`lastSentRef` and emits one message with `is_playing: true`. -/
def handleLocalTimeUpdate (time now : ℚ) (url : Option String) (s : RVPState) :
    RVPState × List PlaybackMsg :=
  if now - s.lastSent < UPDATE_THROTTLE_MS then (s, [])
  else ({ s with lastSent := now }, [mkPlaybackOut true time url])

/-- `handleLocalPlayPause` (lines 109–119): always emits one message with
the actual play flag; never consults or updates the throttle window. -/
def handleLocalPlayPause (isPlaying : Bool) (currentTime : ℚ) (url : Option String)
    (s : RVPState) : RVPState × List PlaybackMsg :=
  (s, [mkPlaybackOut isPlaying currentTime url])

/-- `handleLocalSeek` (lines 121–132): always emits one message, with
`is_playing` hard-coded to `true`; never consults the throttle window. -/
def handleLocalSeek (seekTarget : ℚ) (url : Option String) (s : RVPState) :
    RVPState × List PlaybackMsg :=
  (s, [mkPlaybackOut true seekTarget url])

/-- `StrokePoint = { type: 'start' | 'move', x, y }` from the Whiteboard. -/
inductive PointKind where
  | start
  | move
deriving DecidableEq, Repr

/-- A single pointer sample. -/
structure StrokePoint where
  type : PointKind
  x : ℚ
  y : ℚ
deriving DecidableEq, Repr

/-- Drawing tool. -/
inductive Tool where
  | pen
  | eraser
deriving DecidableEq, Repr

/-- `StoredStroke = { points, color, tool?, size? }`: one entry of
`strokesStoreRef` (the StrokeLog).  `tool`/`size` are optional because
rows fetched from the backend may predate those fields. -/
structure StoredStroke where
  points : List StrokePoint
  color : String
  tool : Option Tool
  size : Option ℚ
deriving DecidableEq, Repr

/-- Canvas 2D compositing mode: `source-over` (pen) or
`destination-out` (eraser). -/
inductive Composite where
  | sourceOver
  | destinationOut
deriving DecidableEq, Repr

/-- The canvas 2D context settings that the drawing code saves, mutates
and restores. -/
structure Ctx where
  composite : Composite
  strokeStyle : String
  lineWidth : ℚ
deriving DecidableEq, Repr

/-- A call against the canvas 2D context; the bitmap itself is abstracted
by the trace of these calls. -/
inductive PaintOp where
  | setComposite (m : Composite)
  | setStrokeStyle (s : String)
  | setLineWidth (w : ℚ)
  | beginPath
  | closePath
  | moveTo (x y : ℚ)
  | lineTo (x y : ℚ)
  | stroke
  | clearRect
deriving DecidableEq, Repr

/-- Whether a paint op only mutates context settings (draws nothing). -/
def PaintOp.isSetting : PaintOp → Bool
  | .setComposite _ => true
  | .setStrokeStyle _ => true
  | .setLineWidth _ => true
  | _ => false

/-- Effect of one paint op on the context settings. -/
def applyOp (c : Ctx) : PaintOp → Ctx
  | .setComposite m => { c with composite := m }
  | .setStrokeStyle s => { c with strokeStyle := s }
  | .setLineWidth w => { c with lineWidth := w }
  | _ => c

/-- Effect of a sequence of paint ops on the context settings. -/
def applyOps (c : Ctx) (ops : List PaintOp) : Ctx := ops.foldl applyOp c

/-- The tool-application prologue of `drawStroke`: eraser switches to
`destination-out` with the eraser width, pen to `source-over` with the
declared color and pen width; a missing `size` falls back to the
component's current `eraserSize`/`penSize`. -/
def applyToolOps (tool : Tool) (color : String) (size : Option ℚ)
    (penSize eraserSize : ℚ) : List PaintOp :=
  match tool with
  | .eraser => [.setComposite .destinationOut, .setLineWidth (size.getD eraserSize)]
  | .pen => [.setComposite .sourceOver, .setStrokeStyle color, .setLineWidth (size.getD penSize)]

/-- The restore epilogue of `drawStroke`: write back the three saved
context settings. -/
def restoreOps (c : Ctx) : List PaintOp :=
  [.setComposite c.composite, .setStrokeStyle c.strokeStyle, .setLineWidth c.lineWidth]

/-- The point loop of `drawStroke` with its `isNewPath` flag: a `start`
point, or any first point, begins a new sub-path; a `move` point extends
and strokes the current one. -/
def drawStrokeLoop : Bool → List StrokePoint → List PaintOp
  | _, [] => []
  | isNewPath, p :: ps =>
      if p.type = .start ∨ isNewPath then
        .beginPath :: .moveTo p.x p.y :: drawStrokeLoop false ps
      else if p.type = .move then
        .lineTo p.x p.y :: .stroke :: drawStrokeLoop isNewPath ps
      else
        drawStrokeLoop isNewPath ps

/-- `drawStroke` (Whiteboard lines 124–159): early return on an empty
point list, otherwise save the context settings, apply the tool, run the
point loop, and restore the saved settings.  Returns the final context
settings together with the full canvas-call trace. -/
def drawStroke (points : List StrokePoint) (color : String) (tool : Tool)
    (size : Option ℚ) (penSize eraserSize : ℚ) (ctx : Ctx) : Ctx × List PaintOp :=
  if points.isEmpty then (ctx, [])
  else
    let ops := applyToolOps tool color size penSize eraserSize
      ++ drawStrokeLoop true points ++ restoreOps ctx
    (applyOps ctx ops, ops)

/-- `repaintAll` (Whiteboard lines 51–57): replay every entry of the
stroke log, in order, with `s.tool ?? 'pen'`, threading the context. -/
def repaintAll (log : List StoredStroke) (penSize eraserSize : ℚ) (ctx : Ctx) :
    Ctx × List PaintOp :=
  log.foldl
    (fun acc s =>
      let r := drawStroke s.points s.color (s.tool.getD .pen) s.size penSize eraserSize acc.1
      (r.1, acc.2 ++ r.2))
    (ctx, [])

/-- Payload of a `draw_batch` broadcast. -/
structure DrawBatchPayload where
  userId : String
  points : List StrokePoint
  color : String
  tool : Option Tool
  size : Option ℚ
deriving DecidableEq, Repr

/-- Payload of a per-point `draw` broadcast. -/
structure DrawPointPayload where
  userId : String
  type : PointKind
  x : ℚ
  y : ℚ
  color : String
  tool : Option Tool
  size : Option ℚ
deriving DecidableEq, Repr

/-- An outgoing broadcast on the whiteboard channel. -/
inductive WBMsg where
  | draw (p : DrawPointPayload)
  | drawBatch (p : DrawBatchPayload)
  | clear (userId : String)
deriving DecidableEq, Repr

/-- The Whiteboard component state: the refs (`strokesStoreRef`,
`contextRef`, `pointsBuffer`, `currentPathRef`, `batchTimerRef`) and the
React state cells used by the drawing code. -/
structure WBState where
  strokesStore : List StoredStroke
  ctx : Option Ctx
  pointsBuffer : List StrokePoint
  currentPath : List StrokePoint
  isDrawing : Bool
  isConnected : Bool
  currentColor : String
  currentTool : Tool
  penSize : ℚ
  eraserSize : ℚ
  batchTimer : Bool
deriving DecidableEq, Repr

/-- `currentTool === 'eraser' ? eraserSize : penSize`. -/
def WBState.toolSize (s : WBState) : ℚ :=
  if s.currentTool = .eraser then s.eraserSize else s.penSize

/-- The tool prologue used by the local drawing handlers
(`startDrawing` / `draw`). -/
def localToolOps (s : WBState) : List PaintOp :=
  if s.currentTool = .eraser then
    [.setComposite .destinationOut, .setLineWidth s.eraserSize]
  else
    [.setComposite .sourceOver, .setStrokeStyle s.currentColor, .setLineWidth s.penSize]

/-- `sendBatchedPoints` (lines 163–179): nothing when the buffer is
empty, otherwise broadcast one `draw_batch` with the buffered points and
the current color/tool/size, then empty the buffer. -/
def sendBatchedPoints (localId : String) (s : WBState) : WBState × List WBMsg :=
  if s.pointsBuffer.isEmpty then (s, [])
  else
    ({ s with pointsBuffer := [] },
      [.drawBatch { userId := localId, points := s.pointsBuffer, color := s.currentColor,
                    tool := some s.currentTool, size := some s.toolSize }])

/-- `startDrawing` (lines 299–337): apply the tool settings, begin a
path at the pointer position, seed `currentPathRef` and the batch
buffer, start the flush timer, and broadcast one per-point `draw` event.
No connection/seeding flag is consulted. -/
def startDrawing (localId : String) (ox oy : ℚ) (s : WBState) :
    WBState × List PaintOp × List WBMsg :=
  match s.ctx with
  | none => (s, [], [])
  | some c =>
      let ops := localToolOps s ++ [.beginPath, .moveTo ox oy]
      let pt : StrokePoint := { type := .start, x := ox, y := oy }
      ({ s with
          ctx := some (applyOps c ops), isDrawing := true,
          currentPath := [pt], pointsBuffer := s.pointsBuffer ++ [pt],
          batchTimer := true },
        ops,
        [.draw { userId := localId, type := .start, x := ox, y := oy,
                 color := s.currentColor, tool := some s.currentTool,
                 size := some s.toolSize }])

/-- `draw` (lines 339–373): while drawing, re-apply the tool settings,
extend and stroke the path, append the point to the buffer and the
current path, and broadcast one per-point `draw` event. -/
def draw (localId : String) (ox oy : ℚ) (s : WBState) :
    WBState × List PaintOp × List WBMsg :=
  if s.isDrawing = false then (s, [], [])
  else
    match s.ctx with
    | none => (s, [], [])
    | some c =>
        let ops := localToolOps s ++ [.lineTo ox oy, .stroke]
        let pt : StrokePoint := { type := .move, x := ox, y := oy }
        ({ s with
            ctx := some (applyOps c ops),
            pointsBuffer := s.pointsBuffer ++ [pt],
            currentPath := s.currentPath ++ [pt] },
          ops,
          [.draw { userId := localId, type := .move, x := ox, y := oy,
                   color := s.currentColor, tool := some s.currentTool,
                   size := some s.toolSize }])

/-- `stopDrawing` (lines 375–427): close the path, flush the remaining
buffered points as a final batch, stop the timer, append the completed
stroke to the stroke log (the persistence POST is fire-and-forget and
outside the model), reset `currentPathRef`, and return the compositing
mode to `source-over`. -/
def stopDrawing (localId : String) (s : WBState) : WBState × List PaintOp × List WBMsg :=
  let closeOps : List PaintOp := match s.ctx with | none => [] | some _ => [.closePath]
  let s1 := { s with isDrawing := false }
  let flushed := sendBatchedPoints localId s1
  let s2 := { flushed.1 with batchTimer := false }
  let s3 :=
    if s2.currentPath.isEmpty then s2
    else
      { s2 with
          strokesStore := s2.strokesStore ++
            [{ points := s2.currentPath, color := s2.currentColor,
               tool := some s2.currentTool, size := some s2.toolSize }] }
  let s4 := { s3 with currentPath := [] }
  let s5 := match s4.ctx with
    | none => s4
    | some c => { s4 with ctx := some (applyOp c (.setComposite .sourceOver)) }
  let resetOps : List PaintOp :=
    match s4.ctx with | none => [] | some _ => [.setComposite .sourceOver]
  (s5, closeOps ++ resetOps, flushed.2)

/-- `clearCanvas` (lines 431–456): clear the whole canvas locally, issue
the backend DELETE (outside the model, fire-and-forget), and broadcast a
`clear` event.  Note: `strokesStoreRef` is left untouched. -/
def clearCanvas (localId : String) (s : WBState) : WBState × List PaintOp × List WBMsg :=
  (s, [.clearRect], [.clear localId])

/-- The `draw_batch` broadcast handler (lines 205–210): drop own echoes
by `userId`; otherwise paint the batch with `tool ?? 'pen'` and append
it to the stroke log (the append happens even when the context is not
ready, since only `drawStroke` checks the context). -/
def onDrawBatch (localId : String) (p : DrawBatchPayload) (s : WBState) :
    WBState × List PaintOp :=
  if p.userId = localId then (s, [])
  else
    let tool := p.tool.getD .pen
    let painted : Option Ctx × List PaintOp :=
      match s.ctx with
      | none => (none, [])
      | some c =>
          let r := drawStroke p.points p.color tool p.size s.penSize s.eraserSize c
          (some r.1, r.2)
    ({ s with
        ctx := painted.1,
        strokesStore := s.strokesStore ++
          [{ points := p.points, color := p.color, tool := some tool, size := p.size }] },
      painted.2)

/-- The per-point `draw` broadcast handler (lines 212–242): drop own
echoes; otherwise save the context settings, apply the declared tool,
paint the single point, and restore the saved settings. -/
def onRemoteDraw (localId : String) (p : DrawPointPayload) (s : WBState) :
    WBState × List PaintOp :=
  if p.userId = localId then (s, [])
  else
    match s.ctx with
    | none => (s, [])
    | some c =>
        let toolOps :=
          match p.tool.getD .pen with
          | .eraser => [PaintOp.setComposite .destinationOut,
                        PaintOp.setLineWidth (p.size.getD s.eraserSize)]
          | .pen => [PaintOp.setComposite .sourceOver, PaintOp.setStrokeStyle p.color,
                     PaintOp.setLineWidth (p.size.getD s.penSize)]
        let pathOps :=
          match p.type with
          | .start => [PaintOp.beginPath, PaintOp.moveTo p.x p.y]
          | .move => [PaintOp.lineTo p.x p.y, PaintOp.stroke]
        let ops := toolOps ++ pathOps ++ restoreOps c
        ({ s with ctx := some (applyOps c ops) }, ops)

/-- The `clear` broadcast handler (lines 245–252): clear the canvas; the
stroke log is untouched. -/
def onRemoteClear (s : WBState) : WBState × List PaintOp :=
  match s.ctx with
  | none => (s, [])
  | some _ => (s, [.clearRect])

/-- A stroke row as fetched from the backend (`GET /strokes/{room}`). -/
structure StrokeRow where
  strokes : List StrokePoint
  color : String
  tool : Option Tool
  size : Option ℚ
deriving DecidableEq, Repr

/-- The seeding step of the `subscribe` callback (lines 254–291): mark
connected, paint each fetched row and append it to the stroke log with
`tool ?? 'pen'`, then set the current color from the last row if any. -/
def seedStrokes (rows : List StrokeRow) (s : WBState) : WBState × List PaintOp :=
  let r := rows.foldl
    (fun acc row =>
      let s0 := acc.1
      let painted : Option Ctx × List PaintOp :=
        match s0.ctx with
        | none => (none, [])
        | some c =>
            let d := drawStroke row.strokes row.color (row.tool.getD .pen) row.size
              s0.penSize s0.eraserSize c
            (some d.1, d.2)
      ({ s0 with
          ctx := painted.1,
          strokesStore := s0.strokesStore ++
            [{ points := row.strokes, color := row.color,
               tool := some (row.tool.getD .pen), size := row.size }] },
        acc.2 ++ painted.2))
    ({ s with isConnected := true }, [])
  match rows.getLast? with
  | some row => ({ r.1 with currentColor := row.color }, r.2)
  | none => r

/-! ## Helper lemmas -/

/-- Applying a concatenation of paint ops composes. -/
theorem applyOps_append (c : Ctx) (l1 l2 : List PaintOp) :
    applyOps c (l1 ++ l2) = applyOps (applyOps c l1) l2 := by
  simp [applyOps, List.foldl_append]

/-- The restore epilogue brings any context back to the saved settings. -/
theorem applyOps_restore (c0 c : Ctx) : applyOps c0 (restoreOps c) = c := rfl

/-- `drawStroke` leaves the context settings exactly as it found them. -/
theorem drawStroke_fst (points : List StrokePoint) (color : String) (tool : Tool)
    (size : Option ℚ) (penSize eraserSize : ℚ) (ctx : Ctx) :
    (drawStroke points color tool size penSize eraserSize ctx).1 = ctx := by
  unfold drawStroke
  split
  · rfl
  · simp [applyOps_append, applyOps_restore]

/-- Unfolding the `repaintAll` fold: the context is invariant (each
entry restores it) and the trace is the in-order concatenation of the
per-entry traces, each computed against the initial context. -/
theorem repaintAll_go (log : List StoredStroke) (p e : ℚ) (c : Ctx) (acc : List PaintOp) :
    log.foldl
      (fun acc s =>
        let r := drawStroke s.points s.color (s.tool.getD .pen) s.size p e acc.1
        (r.1, acc.2 ++ r.2))
      (c, acc) =
    (c, acc ++ (log.map
      (fun s => (drawStroke s.points s.color (s.tool.getD .pen) s.size p e c).2)).flatten) := by
  induction log generalizing acc with
  | nil => simp
  | cons s rest ih =>
      simp only [List.foldl_cons, List.map_cons, List.flatten]
      rw [drawStroke_fst, ih]
      simp [List.append_assoc]

/-! ## Claim theorems for the drawing engine -/

/-- C7: `repaintAll` is a deterministic function of the StrokeLog (and
the fresh-surface parameters): its canvas-call trace is exactly the
concatenation, in insertion order, of each log entry's `drawStroke`
trace computed against the fresh context, and it returns the context
settings unchanged.  Hence two invocations on freshly cleared surfaces
with the same StrokeLog produce the same ordered sequence of paint
calls. -/
theorem repaintAll_trace_deterministic (log : List StoredStroke) (p e : ℚ) (c : Ctx) :
    repaintAll log p e c =
      (c, (log.map
        (fun s => (drawStroke s.points s.color (s.tool.getD .pen) s.size p e c).2)).flatten) := by
  unfold repaintAll
  exact repaintAll_go log p e c []

/-- C8: after painting any single stroke batch, `drawStroke` restores
the compositing mode, stroke color and line width to the values they
held before the batch was painted; in particular an eraser batch painted
while the mode is `source-over` leaves the mode `source-over`
immediately after. -/
theorem drawStroke_restores_settings (points : List StrokePoint) (color : String)
    (tool : Tool) (size : Option ℚ) (penSize eraserSize : ℚ) (ctx : Ctx) :
    (drawStroke points color tool size penSize eraserSize ctx).1 = ctx ∧
    ((drawStroke points color .eraser size penSize eraserSize
        { ctx with composite := .sourceOver }).1).composite = .sourceOver := by
  refine ⟨drawStroke_fst _ _ _ _ _ _ _, ?_⟩
  rw [drawStroke_fst]

/-- C10: `drawStroke` is total over arbitrary point sequences: on an
empty list it emits no canvas call and leaves the settings unchanged,
and on any nonempty list the first path operation is `beginPath` /
`moveTo` at the first point — even when that point's kind is `move` —
with only settings writes before it, so no line segment is ever drawn
from an undefined previous position. -/
theorem drawStroke_total_first_point (color : String) (tool : Tool) (size : Option ℚ)
    (penSize eraserSize : ℚ) (ctx : Ctx) (pt : StrokePoint) (ps : List StrokePoint) :
    drawStroke [] color tool size penSize eraserSize ctx = (ctx, []) ∧
    ∃ pre rest,
      (drawStroke (pt :: ps) color tool size penSize eraserSize ctx).2 =
        pre ++ PaintOp.beginPath :: PaintOp.moveTo pt.x pt.y :: rest ∧
      ∀ o ∈ pre, o.isSetting = true := by
  constructor
  · rfl
  · refine ⟨applyToolOps tool color size penSize eraserSize,
      drawStrokeLoop false ps ++ restoreOps ctx, ?_, ?_⟩
    · have hloop : drawStrokeLoop true (pt :: ps) =
          PaintOp.beginPath :: PaintOp.moveTo pt.x pt.y :: drawStrokeLoop false ps := by
        simp only [drawStrokeLoop]
        rw [if_pos (Or.inr trivial)]
      simp [drawStroke, hloop]
    · intro o ho
      cases tool
      · simp only [applyToolOps, List.mem_cons, List.not_mem_nil, or_false] at ho
        rcases ho with h | h | h <;> simp [h, PaintOp.isSetting]
      · simp only [applyToolOps, List.mem_cons, List.not_mem_nil, or_false] at ho
        rcases ho with h | h <;> simp [h, PaintOp.isSetting]

/-! ## Claim theorems for the playback synchronization logic -/

/-- C1: for every remote playback update applied while the control
surface is ready, a corrective seek is issued if and only if
`|localTime - playback_time| > SEEK_THRESHOLD`, and when issued it is
exactly one seek targeting the message's `playback_time`; the message's
`is_playing` flag is applied to the local play state unconditionally. -/
theorem playbackUpdate_seek_iff_playflag (msg : PlaybackMsg) (last : ℚ)
    (pend : Option ℚ) (p : PlayerSurface) :
    (onPlaybackUpdate msg ⟨last, pend, some p⟩).2.filter PlayerCmd.isSeek =
      (if |p.currentTime - msg.playback_time| > SEEK_THRESHOLD
       then [PlayerCmd.seekTo msg.playback_time] else []) ∧
    ∃ q, (onPlaybackUpdate msg ⟨last, pend, some p⟩).1.player = some q ∧
      q.playing = msg.is_playing := by
  constructor
  · by_cases h : |p.currentTime - msg.playback_time| > SEEK_THRESHOLD
    · simp [onPlaybackUpdate, h, PlayerCmd.isSeek, List.filter]
    · simp [onPlaybackUpdate, h, PlayerCmd.isSeek, List.filter]
  · exact ⟨_, rfl, rfl⟩

/-- C5: the periodic time-sync heartbeat is broadcast exactly when the
throttle interval has elapsed since the last heartbeat (and is
suppressed otherwise), while local play/pause and seek events are always
broadcast immediately, untouched by the throttle window. -/
theorem heartbeat_throttle_policy (time now ct t : ℚ) (b : Bool)
    (url : Option String) (s : RVPState) :
    ((handleLocalTimeUpdate time now url s).2 ≠ [] ↔
      UPDATE_THROTTLE_MS ≤ now - s.lastSent) ∧
    (handleLocalPlayPause b ct url s).2 = [mkPlaybackOut b ct url] ∧
    (handleLocalSeek t url s).2 = [mkPlaybackOut true t url] := by
  refine ⟨?_, rfl, rfl⟩
  rcases lt_or_le (now - s.lastSent) UPDATE_THROTTLE_MS with h | h
  · simp [handleLocalTimeUpdate, h, not_le.mpr h]
  · simp [handleLocalTimeUpdate, not_lt.mpr h, h]

/-- C6: the pending-seek buffer is a single optional cell, a remote
update arriving with no ready surface overwrites any unconsumed buffered
target with the new one, and when the surface attaches a buffered target
is consumed exactly once: one seek to it is issued, the buffer is reset,
and a second attach issues no further seek. -/
theorem pendingSeek_single_consumption (t last : ℚ) (msg : PlaybackMsg)
    (ctl : PlayerSurface) (pend : Option ℚ) :
    (onPlaybackUpdate msg ⟨last, pend, none⟩).1.pendingSeek = some msg.playback_time ∧
    (setPlayerControls ctl ⟨last, some t, none⟩).2 = [PlayerCmd.seekTo t] ∧
    (setPlayerControls ctl ⟨last, some t, none⟩).1.pendingSeek = none ∧
    (setPlayerControls ctl ((setPlayerControls ctl ⟨last, some t, none⟩).1)).2 = [] :=
  ⟨rfl, rfl, rfl, rfl⟩

/-- C9: every playback-update message emitted for a locally initiated
seek carries `is_playing = true` regardless of the actual local play
state, and a remote client with a ready surface that applies such a
message ends up playing, even if it was paused. -/
theorem localSeek_forces_playing (t last ct : ℚ) (url : Option String)
    (s : RVPState) (pend : Option ℚ) (b : Bool) :
    (handleLocalSeek t url s).2 = [mkPlaybackOut true t url] ∧
    ∀ m ∈ (handleLocalSeek t url s).2,
      ∃ q, (onPlaybackUpdate m ⟨last, pend, some ⟨ct, b⟩⟩).1.player = some q ∧
        q.playing = true := by
  refine ⟨rfl, ?_⟩
  intro m hm
  simp only [handleLocalSeek, List.mem_singleton] at hm
  subst hm
  exact ⟨_, rfl, rfl⟩

/-! ## C2: echo suppression -/

/-- The local client id used in the C2 counterexample. -/
def localIdC2 : String := "local-client"

/-- A playback-update whose origin metadata equals the local id. -/
def msgC2 : PlaybackMsg :=
  { origin := some localIdC2, is_playing := true, playback_time := 0, video_url := none }

/-- A ready, paused local player state. -/
def stateC2 : RVPState :=
  { lastSent := 0, pendingSeek := none,
    player := some { currentTime := 0, playing := false } }

/-- C2 counterexample: the playback-update handler performs no origin
check, so a message whose origin equals the local id still mutates the
local playback state (the paused player is switched to playing). -/
theorem playback_echo_mutates_state :
    msgC2.origin = some localIdC2 ∧
    (onPlaybackUpdate msgC2 stateC2).1 ≠ stateC2 := by
  refine ⟨rfl, ?_⟩
  have h0 : ¬((3 : ℚ) / 5 < |(0 : ℚ) - 0|) := by norm_num
  simp [onPlaybackUpdate, msgC2, stateC2, SEEK_THRESHOLD, h0]

/-- C2 amended: echo suppression holds on the drawing channel — a
`draw_batch` or `draw` message whose `userId` equals the local id is
discarded, leaving the whiteboard state (in particular the StrokeLog)
and the canvas untouched — but not on the playback channel: the
playback-update handler applies the message's `is_playing` whenever the
surface is ready, regardless of any origin metadata, including origin
equal to the local id. -/
theorem echo_suppression_draw_only (uid : String) (pts : List StrokePoint)
    (col : String) (tool : Option Tool) (sz : Option ℚ) (s : WBState)
    (pp : DrawPointPayload) (msg : PlaybackMsg) (last ct : ℚ)
    (pend : Option ℚ) (b : Bool) :
    onDrawBatch uid { userId := uid, points := pts, color := col, tool := tool, size := sz } s = (s, []) ∧
    onRemoteDraw uid { pp with userId := uid } s = (s, []) ∧
    ∃ q, (onPlaybackUpdate { msg with origin := some uid }
        ⟨last, pend, some ⟨ct, b⟩⟩).1.player = some q ∧
      q.playing = msg.is_playing := by
  refine ⟨?_, ?_, ⟨_, rfl, rfl⟩⟩
  · simp [onDrawBatch]
  · simp [onRemoteDraw]

/-! ## C3: the clear operation and the StrokeLog -/

/-- A concrete pen stroke for the C3 evaluation. -/
def strokeC3 : StoredStroke :=
  { points := [{ type := .start, x := 1, y := 1 }, { type := .move, x := 2, y := 2 }],
    color := "#ffffff", tool := some .pen, size := some 5 }

/-- A fresh context as set up by `setupCanvas`. -/
def ctxC3 : Ctx := { composite := .sourceOver, strokeStyle := "#3ecf8e", lineWidth := 5 }

/-- A connected whiteboard state whose StrokeLog holds one stroke. -/
def stateC3 : WBState :=
  { strokesStore := [strokeC3], ctx := some ctxC3,
    pointsBuffer := [], currentPath := [], isDrawing := false, isConnected := true,
    currentColor := "#3ecf8e", currentTool := .pen, penSize := 5, eraserSize := 18,
    batchTimer := false }

/-- C3 evaluated at the failing input: `clearCanvas` clears the canvas
and broadcasts a clear event, but leaves the StrokeLog untouched, so a
subsequent resize-triggered `repaintAll` repaints the cleared stroke. -/
theorem clearCanvas_keeps_log :
    (clearCanvas "u1" stateC3).2.1 = [PaintOp.clearRect] ∧
    (clearCanvas "u1" stateC3).2.2 = [WBMsg.clear "u1"] ∧
    (clearCanvas "u1" stateC3).1.strokesStore = [strokeC3] ∧
    (repaintAll (clearCanvas "u1" stateC3).1.strokesStore
        stateC3.penSize stateC3.eraserSize ctxC3).2 ≠ [] := by
  refine ⟨rfl, rfl, rfl, ?_⟩
  decide

/-! ## C4: seeding and outgoing broadcasts -/

/-- A whiteboard state before late-joiner seeding has completed: not yet
connected, empty StrokeLog, context attached. -/
def preseedWB : WBState :=
  { strokesStore := [], ctx := some ctxC3,
    pointsBuffer := [], currentPath := [], isDrawing := false, isConnected := false,
    currentColor := "#3ecf8e", currentTool := .pen, penSize := 5, eraserSize := 18,
    batchTimer := false }

/-- C4 counterexample: a local draw event observed before seeding has
completed (not connected, no stroke history applied) is nevertheless
broadcast — `startDrawing` consults no seeding or connection flag. -/
theorem preseed_draw_broadcast :
    preseedWB.isConnected = false ∧ preseedWB.strokesStore = [] ∧
    (startDrawing "u1" 10 10 preseedWB).2.2 ≠ [] := by
  refine ⟨rfl, rfl, ?_⟩
  decide

/-- C4 amended: outgoing broadcasts are not gated on seeding.  Whenever
the drawing context is attached, a local pointer-down broadcasts exactly
one `draw` event, with the same payload whether or not the client is
connected/seeded; and the playback heartbeat is gated only by the
throttle window (it fires as soon as the throttle has elapsed, with no
seeding condition). -/
theorem draw_broadcast_ungated (uid : String) (ox oy time : ℚ) (s : WBState)
    (c : Ctx) (b : Bool) (url : Option String) (rv : RVPState) :
    (startDrawing uid ox oy { s with ctx := some c, isConnected := b }).2.2 =
      [WBMsg.draw { userId := uid, type := .start, x := ox, y := oy,
                    color := s.currentColor, tool := some s.currentTool,
                    size := some s.toolSize }] ∧
    (handleLocalTimeUpdate time (rv.lastSent + UPDATE_THROTTLE_MS) url rv).2 =
      [mkPlaybackOut true time url] := by
  constructor
  · rfl
  · have h : ¬(rv.lastSent + UPDATE_THROTTLE_MS - rv.lastSent < UPDATE_THROTTLE_MS) := by
      simp
    simp [handleLocalTimeUpdate, h]

end Mernify
